import Mathlib

/-!
Verification development for the file-processing HTTP service
(`src/index.tsx`).  Bytes are modelled as `List Nat` (each element a byte
value); machine-level truncation points use explicit `% 2^32`.

The service has three handlers:
* `POST /api/upload-axios`  — gzip-compress the uploaded buffer, wrap it in
  32 random prefix bytes and 48 random suffix bytes, store the framed blob;
* `GET /api/decompress`     — look the record up by name, slice the blob with
  `subarray(PREFIX_BYTES, length - SUFFIX_BYTES)`, gunzip, serve;
* `GET /api/files`          — list metadata ordered by `createdAt` descending.

The store (Prisma) is modelled as an in-memory list of records with an
auto-incremented id and a monotone creation clock; `findFirst` is the first
match in insertion order.  The zlib gzip/gunzip transform is not part of the
repository, so it is modelled from the spec's Compression Adapter contract
(see `compress` / `decompress` below).
-/

namespace FileServer

/-- Byte sequences: each entry is one byte value. -/
abbrev Bytes := List Nat

/-- Constants for security bytes (src/index.tsx lines 18-19). -/
def PREFIX_BYTES : Nat := 32

/-- Constants for security bytes (src/index.tsx lines 18-19). -/
def SUFFIX_BYTES : Nat := 48

/-- Error taxonomy of the spec (section 7); the code surfaces these as the
HTTP statuses recorded by the handlers below. -/
inductive PipelineError where
  | ValidationError
  | NotFoundError
  | FramingError
  | DecompressionError
  | StoreError
deriving DecidableEq, Repr

/-! ### Node `Buffer.subarray` semantics

`TypedArray.prototype.subarray(begin, end)` interprets a negative index as
`length + index` and clamps the result into `[0, length]`; the slice is the
(possibly empty) range `[begin', end')`. -/

/-- Resolve one `subarray` index against a buffer length: negative indices
count from the end, and the result is clamped into `[0, len]`. -/
def relIndex (len : Nat) (i : Int) : Nat :=
  if i < 0 then ((len : Int) + i).toNat else min i.toNat len

/-- Node `Buffer.subarray(start, stop)` on a byte list. -/
def subarray (b : Bytes) (start stop : Int) : Bytes :=
  (b.take (relIndex b.length stop)).drop (relIndex b.length start)

/-! ### Framing codec

Encoding is inlined in the upload handler (lines 64-73): concatenate 32
random prefix bytes, the compressed payload and 48 random suffix bytes.
Decoding is inlined in the decompress handler (lines 121-125):
`subarray(PREFIX_BYTES, length - SUFFIX_BYTES)` — note that no length check
is performed before slicing. -/

/-- Framing encode (upload handler, lines 64-73): `pre ++ payload ++ sfx`
where the caller supplies the random prefix/suffix bytes. -/
def encode (pre sfx payload : Bytes) : Bytes :=
  pre ++ payload ++ sfx

/-- Framing decode (decompress handler, lines 121-125):
`subarray(PREFIX_BYTES, length - SUFFIX_BYTES)`; total, no length check. -/
def decode (framed : Bytes) : Bytes :=
  subarray framed (PREFIX_BYTES : Int) ((framed.length : Int) - (SUFFIX_BYTES : Int))

/-- Spec-side framing decode, written from the spec's words (section 4.1):
fails with `FramingError` when `len(framed) < PREFIX_BYTES + SUFFIX_BYTES`,
otherwise returns the byte range `[PREFIX_BYTES, len - SUFFIX_BYTES)`.
Used only to compare the spec's contract with the code's `decode`. -/
def decodeSpec (framed : Bytes) : Except PipelineError Bytes :=
  if framed.length < PREFIX_BYTES + SUFFIX_BYTES then
    .error .FramingError
  else
    .ok ((framed.take (framed.length - SUFFIX_BYTES)).drop PREFIX_BYTES)

/-! ### Compression adapter (modelled from the spec)

The repository delegates compression to Node's zlib (`createGzip` /
`createGunzip`), which is not part of the repository's sources. -/

/-- Modelled from the spec: little-endian 4-byte field of the gzip trailer
(the zlib implementation is not in the repository sources). -/
def le32 (n : Nat) : Bytes :=
  [n % 256, n / 256 % 256, n / 65536 % 256, n / 16777216 % 256]

/-- Modelled from the spec: the fixed 10-byte gzip member header produced by
the deflate-family stream (zlib is not in the repository sources). -/
def gzipHeader : Bytes :=
  [31, 139, 8, 0, 0, 0, 0, 0, 0, 255]

/-- Modelled from the spec: the stream checksum over the uncompressed
payload, reduced mod 2^32 (stands in for CRC-32; zlib is not in the
repository sources). -/
def crc (x : Bytes) : Nat :=
  x.foldl (fun a b => (a * 31 + b) % 4294967296) 0

/-- Modelled from the spec: `compress` of the Compression Adapter
(section 4.2) — a deterministic whole-buffer deflate-family transform,
fully flushed: header, payload, then an 8-byte trailer of checksum and
input size mod 2^32.  The real implementation (Node zlib `createGzip`)
is not in the repository sources. -/
def compress (x : Bytes) : Bytes :=
  gzipHeader ++ x ++ (le32 (crc x) ++ le32 (x.length % 4294967296))

/-- Modelled from the spec: `decompress` of the Compression Adapter
(section 4.2) — the inverse transform; fails with `DecompressionError` on a
malformed header, a truncated stream, or a checksum mismatch.  The real
implementation (Node zlib `createGunzip`) is not in the repository
sources. -/
def decompress (b : Bytes) : Except PipelineError Bytes :=
  if b.length < 18 then
    .error .DecompressionError
  else
    let hdr := b.take 10
    let rest := b.drop 10
    let payload := rest.take (rest.length - 8)
    let trailer := rest.drop (rest.length - 8)
    if hdr = gzipHeader ∧ trailer = le32 (crc payload) ++ le32 (payload.length % 4294967296) then
      .ok payload
    else
      .error .DecompressionError

/-- Modelled from the spec: stand-in for `crypto.randomBytes(n)` — a
deterministic byte source parameterised by a seed; only its length and the
fact that the bytes are discarded on read matter to the pipelines. -/
def randomBytes (seed n : Nat) : Bytes :=
  (List.range n).map (fun i => (seed + i * 2654435761) % 256)

/-! ### Store gateway -/

/-- A persisted record (`prisma.file` row): `{id, name, data, mimeType,
createdAt}`. -/
structure StoredFile where
  id : Nat
  name : String
  data : Bytes
  mimeType : String
  createdAt : Nat
deriving DecidableEq, Repr

/-- Store state: records in insertion order, the next id to assign and a
monotone creation clock. -/
structure Store where
  records : List StoredFile
  nextId : Nat
  now : Nat
deriving DecidableEq, Repr

/-- The empty store. -/
def emptyStore : Store := ⟨[], 0, 0⟩

/-- `prisma.file.create` (lines 76-82): append a new record with a fresh id
and the current creation time. -/
def Store.create (s : Store) (name : String) (data : Bytes) (mimeType : String) :
    StoredFile × Store :=
  let r : StoredFile := ⟨s.nextId, name, data, mimeType, s.now⟩
  (r, ⟨s.records ++ [r], s.nextId + 1, s.now + 1⟩)

/-- `prisma.file.findFirst({where: {name}})` (lines 112-114): the first
record in insertion order whose name matches. -/
def Store.findByName (s : Store) (name : String) : Option StoredFile :=
  s.records.find? (fun r => r.name == name)

/-! ### Handlers

Each handler is instrumented with the list of pipeline steps it executed, so
that "no store call occurs" / "no decompression work" claims are statable. -/

/-- Pipeline steps a handler may execute. -/
inductive Step where
  | compressStep
  | encodeStep
  | createStep
  | findStep
  | decodeStep
  | decompressStep
deriving DecidableEq, Repr

/-- The multipart file object (`req.file`): original name, raw buffer,
mime type. -/
structure UploadedFile where
  originalname : String
  buffer : Bytes
  mimetype : String
deriving DecidableEq, Repr

/-- Response of the upload handler: success carries `{filename, fileId}`;
failure carries the HTTP status and the pipeline error. -/
inductive UploadOutcome where
  | success (filename : String) (fileId : Nat)
  | failure (status : Nat) (e : PipelineError)
deriving DecidableEq, Repr

/-- Result of one upload request: response, resulting store state, executed
steps. -/
structure UploadResultT where
  outcome : UploadOutcome
  store : Store
  steps : List Step
deriving DecidableEq, Repr

/-- The upload pipeline after the file-presence check, parameterised by the
outcome of the compression promise (lines 44-96): on compression failure the
catch block answers 500 and nothing is stored; on success the payload is
framed and one record is created. -/
def uploadWith (f : UploadedFile) (compRes : Except PipelineError Bytes)
    (pre sfx : Bytes) (s : Store) : UploadResultT :=
  match compRes with
  | .error e => ⟨.failure 500 e, s, [.compressStep]⟩
  | .ok compressedContent =>
    let finalBuffer := encode pre sfx compressedContent
    let (storedFile, s') := s.create f.originalname finalBuffer f.mimetype
    ⟨.success f.originalname storedFile.id, s',
      [.compressStep, .encodeStep, .createStep]⟩

/-- `POST /api/upload-axios` (lines 35-98): 400 if no file field is present;
otherwise gzip the buffer, frame it with fresh random bytes and store it. -/
def uploadHandler (seed : Nat) (file? : Option UploadedFile) (s : Store) :
    UploadResultT :=
  match file? with
  | none => ⟨.failure 400 .ValidationError, s, []⟩
  | some f =>
      uploadWith f (.ok (compress f.buffer))
        (randomBytes seed PREFIX_BYTES) (randomBytes (seed + 1) SUFFIX_BYTES) s

/-- Response of the decompress handler: success carries the served bytes and
the `Content-Type` (the stored mime type); failure carries the HTTP status
and the pipeline error. -/
inductive RetrieveOutcome where
  | success (bytes : Bytes) (mimeType : String)
  | failure (status : Nat) (e : PipelineError)
deriving DecidableEq, Repr

/-- Result of one retrieval request: response, resulting store state,
executed steps. -/
structure RetrieveResultT where
  outcome : RetrieveOutcome
  store : Store
  steps : List Step
deriving DecidableEq, Repr

/-- `GET /api/decompress` (lines 101-155): 400 on a missing (empty)
filename, 404 when no record matches, otherwise slice off the security
bytes and gunzip; any decompression error is answered with 500. -/
def decompressHandler (filename : String) (s : Store) : RetrieveResultT :=
  if filename = "" then
    ⟨.failure 400 .ValidationError, s, []⟩
  else
    match s.findByName filename with
    | none => ⟨.failure 404 .NotFoundError, s, [.findStep]⟩
    | some file =>
      match decompress (decode file.data) with
      | .error e =>
          ⟨.failure 500 e, s, [.findStep, .decodeStep, .decompressStep]⟩
      | .ok decompressedContent =>
          ⟨.success decompressedContent file.mimeType, s,
            [.findStep, .decodeStep, .decompressStep]⟩

/-- Metadata projection served by `GET /api/files` (lines 162-168): exactly
the fields `id`, `name`, `mimeType`, `createdAt`. -/
structure FileMetadata where
  id : Nat
  name : String
  mimeType : String
  createdAt : Nat
deriving DecidableEq, Repr

/-- Project a record to its listed metadata. -/
def toMetadata (r : StoredFile) : FileMetadata :=
  ⟨r.id, r.name, r.mimeType, r.createdAt⟩

/-- Insert a record into a list sorted by `createdAt` descending. -/
def insertByCreatedAtDesc (r : StoredFile) : List StoredFile → List StoredFile
  | [] => [r]
  | x :: xs =>
      if x.createdAt ≤ r.createdAt then r :: x :: xs
      else x :: insertByCreatedAtDesc r xs

/-- Sort records by `createdAt` descending (`orderBy: {createdAt: "desc"}`,
lines 169-171). -/
def sortByCreatedAtDesc : List StoredFile → List StoredFile
  | [] => []
  | x :: xs => insertByCreatedAtDesc x (sortByCreatedAtDesc xs)

/-- `GET /api/files` (lines 158-179): metadata of all records, ordered by
`createdAt` descending; the payload bytes are never read. -/
def filesHandler (s : Store) : List FileMetadata :=
  (sortByCreatedAtDesc s.records).map toMetadata

/-- Replace each record's payload bytes, leaving every other field alone. -/
def setData (f : StoredFile → Bytes) (r : StoredFile) : StoredFile :=
  { r with data := f r }

/-- Replace the payload bytes of every record of a store. -/
def Store.mapData (f : StoredFile → Bytes) (s : Store) : Store :=
  { s with records := s.records.map (setData f) }

/-! ### Helper lemmas -/

theorem randomBytes_length (seed n : Nat) : (randomBytes seed n).length = n := by
  simp [randomBytes]

theorem encode_length (pre sfx p : Bytes) (hpre : pre.length = PREFIX_BYTES)
    (hsfx : sfx.length = SUFFIX_BYTES) :
    (encode pre sfx p).length = p.length + 80 := by
  simp [encode, hpre, hsfx, PREFIX_BYTES, SUFFIX_BYTES]
  omega

theorem decode_encode (pre sfx p : Bytes) (hpre : pre.length = PREFIX_BYTES)
    (hsfx : sfx.length = SUFFIX_BYTES) :
    decode (encode pre sfx p) = p := by
  have hlen : (encode pre sfx p).length = p.length + 80 := encode_length pre sfx p hpre hsfx
  simp only [decode, subarray, hlen]
  have h1 : relIndex (p.length + 80) ((PREFIX_BYTES : Nat) : Int) = 32 := by
    simp only [relIndex, PREFIX_BYTES]
    split <;> omega
  have h2 : relIndex (p.length + 80)
      (((p.length + 80 : Nat) : Int) - ((SUFFIX_BYTES : Nat) : Int)) = p.length + 32 := by
    simp only [relIndex, SUFFIX_BYTES]
    split <;> omega
  rw [h1, h2]
  have h3 : (encode pre sfx p).take (p.length + 32) = pre ++ p := by
    have hl : (pre ++ p).length = p.length + 32 := by
      simp [hpre, PREFIX_BYTES]
      omega
    rw [encode, ← hl, List.take_left]
  rw [h3]
  have h4 : (32 : Nat) = pre.length := by simp [hpre, PREFIX_BYTES]
  rw [h4]
  exact List.drop_left pre p

theorem decompress_compress (x : Bytes) : decompress (compress x) = .ok x := by
  have hlen : (compress x).length = x.length + 18 := by
    simp [compress, gzipHeader, le32]
  have e1 : (compress x).take 10 = gzipHeader := by
    rw [compress, List.append_assoc]
    have h10 : (10 : Nat) = gzipHeader.length := by rfl
    rw [h10, List.take_left]
  have e2 : (compress x).drop 10 = x ++ (le32 (crc x) ++ le32 (x.length % 4294967296)) := by
    rw [compress, List.append_assoc]
    have h10 : (10 : Nat) = gzipHeader.length := by rfl
    rw [h10, List.drop_left]
  have e3 : ((compress x).drop 10).length - 8 = x.length := by
    rw [e2]
    simp [le32]
  have e4 : ((compress x).drop 10).take (((compress x).drop 10).length - 8) = x := by
    rw [e3, e2]
    have hx : (x ++ (le32 (crc x) ++ le32 (x.length % 4294967296))).take x.length = x :=
      List.take_left x _
    exact hx
  have e5 : ((compress x).drop 10).drop (((compress x).drop 10).length - 8) =
      le32 (crc x) ++ le32 (x.length % 4294967296) := by
    rw [e3, e2]
    exact List.drop_left x _
  unfold decompress
  rw [if_neg (by rw [hlen]; omega)]
  simp only [e1, e4, e5]
  simp

theorem decompress_short (b : Bytes) (h : b.length < 18) :
    decompress b = .error .DecompressionError := by
  unfold decompress
  rw [if_pos h]

theorem relIndex_ofNat (len n : Nat) : relIndex len (n : Int) = min n len := by
  unfold relIndex
  split <;> omega

theorem relIndex_sub_suffix (len : Nat) :
    relIndex len ((len : Int) - (SUFFIX_BYTES : Int)) =
      if len < 48 then 2 * len - 48 else len - 48 := by
  unfold relIndex SUFFIX_BYTES
  split <;> split <;> omega

theorem decode_length_eq (b : Bytes) :
    (decode b).length =
      min (if b.length < 48 then 2 * b.length - 48 else b.length - 48) b.length
        - min 32 b.length := by
  have h1 := relIndex_sub_suffix b.length
  have h2 : relIndex b.length ((PREFIX_BYTES : Nat) : Int) = min 32 b.length :=
    relIndex_ofNat b.length PREFIX_BYTES
  simp only [decode, subarray, List.length_drop, List.length_take, h1, h2]

theorem decode_length_le (b : Bytes) (h : b.length < 80) : (decode b).length ≤ 14 := by
  rw [decode_length_eq]
  split <;> omega

theorem decode_short_eq_nil (b : Bytes)
    (h : b.length ≤ 40 ∨ (48 ≤ b.length ∧ b.length < 80)) :
    decode b = [] := by
  apply List.eq_nil_of_length_eq_zero
  rw [decode_length_eq]
  split <;> omega

theorem find?_append_singleton (l : List StoredFile) (r : StoredFile) (name : String)
    (hfresh : ∀ x ∈ l, x.name ≠ name) (hr : r.name = name) :
    (l ++ [r]).find? (fun x => x.name == name) = some r := by
  induction l with
  | nil => simp [List.find?, hr]
  | cons a as ih =>
    have ha : (a.name == name) = false := by
      simp only [beq_eq_false_iff_ne, ne_eq]
      exact hfresh a (by simp)
    have ih' := ih (fun x hx => hfresh x (by simp [hx]))
    simp only [List.cons_append, List.find?, ha]
    exact ih'

theorem findByName_eq_none (s : Store) (name : String)
    (hmiss : ∀ r ∈ s.records, r.name ≠ name) :
    s.findByName name = none := by
  apply List.find?_eq_none.mpr
  intro x hx
  simp only [beq_iff_eq]
  exact hmiss x hx

theorem decompressHandler_store (name : String) (s : Store) :
    (decompressHandler name s).store = s := by
  unfold decompressHandler
  split
  · rfl
  · split
    · rfl
    · split <;> rfl

theorem perm_insertByCreatedAtDesc (r : StoredFile) (l : List StoredFile) :
    (insertByCreatedAtDesc r l).Perm (r :: l) := by
  induction l with
  | nil => simp [insertByCreatedAtDesc]
  | cons a as ih =>
    unfold insertByCreatedAtDesc
    split
    · exact List.Perm.refl _
    · exact (ih.cons a).trans (List.Perm.swap r a as)

theorem mem_insertByCreatedAtDesc (x r : StoredFile) (l : List StoredFile) :
    x ∈ insertByCreatedAtDesc r l ↔ x = r ∨ x ∈ l := by
  rw [(perm_insertByCreatedAtDesc r l).mem_iff]
  simp

theorem pairwise_insertByCreatedAtDesc (r : StoredFile) (l : List StoredFile)
    (h : l.Pairwise (fun a b => b.createdAt ≤ a.createdAt)) :
    (insertByCreatedAtDesc r l).Pairwise (fun a b => b.createdAt ≤ a.createdAt) := by
  induction l with
  | nil => simp [insertByCreatedAtDesc]
  | cons a as ih =>
    rw [List.pairwise_cons] at h
    obtain ⟨ha, has⟩ := h
    unfold insertByCreatedAtDesc
    split
    · rename_i hle
      refine List.pairwise_cons.mpr ⟨?_, List.pairwise_cons.mpr ⟨ha, has⟩⟩
      intro y hy
      rcases List.mem_cons.mp hy with rfl | hy'
      · exact hle
      · exact le_trans (ha y hy') hle
    · rename_i hgt
      refine List.pairwise_cons.mpr ⟨?_, ih has⟩
      intro y hy
      rcases (mem_insertByCreatedAtDesc y r as).mp hy with rfl | hy'
      · omega
      · exact ha y hy'

theorem perm_sortByCreatedAtDesc (l : List StoredFile) :
    (sortByCreatedAtDesc l).Perm l := by
  induction l with
  | nil => exact List.Perm.refl _
  | cons a as ih =>
    unfold sortByCreatedAtDesc
    exact (perm_insertByCreatedAtDesc a _).trans (ih.cons a)

theorem pairwise_sortByCreatedAtDesc (l : List StoredFile) :
    (sortByCreatedAtDesc l).Pairwise (fun a b => b.createdAt ≤ a.createdAt) := by
  induction l with
  | nil => simp [sortByCreatedAtDesc]
  | cons a as ih =>
    unfold sortByCreatedAtDesc
    exact pairwise_insertByCreatedAtDesc a _ ih

theorem createdAt_setData (f : StoredFile → Bytes) (r : StoredFile) :
    (setData f r).createdAt = r.createdAt := rfl

theorem toMetadata_setData (f : StoredFile → Bytes) (r : StoredFile) :
    toMetadata (setData f r) = toMetadata r := rfl

theorem insert_map_setData (f : StoredFile → Bytes) (r : StoredFile) (l : List StoredFile) :
    insertByCreatedAtDesc (setData f r) (l.map (setData f)) =
      (insertByCreatedAtDesc r l).map (setData f) := by
  induction l with
  | nil => simp [insertByCreatedAtDesc]
  | cons a as ih =>
    simp only [List.map_cons]
    unfold insertByCreatedAtDesc
    simp only [createdAt_setData]
    split
    · simp
    · simp [ih]

theorem sort_map_setData (f : StoredFile → Bytes) (l : List StoredFile) :
    sortByCreatedAtDesc (l.map (setData f)) = (sortByCreatedAtDesc l).map (setData f) := by
  induction l with
  | nil => rfl
  | cons a as ih =>
    simp only [List.map_cons]
    unfold sortByCreatedAtDesc
    rw [ih]
    exact insert_map_setData f a (sortByCreatedAtDesc as)

theorem filesHandler_mapData (s : Store) (f : StoredFile → Bytes) :
    filesHandler (s.mapData f) = filesHandler s := by
  simp only [filesHandler, Store.mapData]
  rw [sort_map_setData]
  simp [List.map_map, Function.comp_def, toMetadata_setData]

theorem uploadHandler_some_store (seed : Nat) (f : UploadedFile) (s : Store) :
    (uploadHandler seed (some f) s).store =
      ⟨s.records ++ [⟨s.nextId, f.originalname,
        encode (randomBytes seed PREFIX_BYTES) (randomBytes (seed + 1) SUFFIX_BYTES)
          (compress f.buffer), f.mimetype, s.now⟩], s.nextId + 1, s.now + 1⟩ := rfl

/-! ### Claim theorems -/

/-- C1: end-to-end round-trip — for every byte sequence (including the empty
one) and every mime type, ingesting it under a (non-empty, not previously
used) name and then retrieving by that name returns exactly the uploaded
bytes, with the mime type supplied at ingest. -/
theorem upload_then_retrieve_roundtrip (seed : Nat) (f : UploadedFile) (s : Store)
    (hname : f.originalname ≠ "")
    (hfresh : ∀ r ∈ s.records, r.name ≠ f.originalname) :
    (decompressHandler f.originalname (uploadHandler seed (some f) s).store).outcome
      = .success f.buffer f.mimetype := by
  rw [uploadHandler_some_store]
  have hfind : Store.findByName
      ⟨s.records ++ [⟨s.nextId, f.originalname,
        encode (randomBytes seed PREFIX_BYTES) (randomBytes (seed + 1) SUFFIX_BYTES)
          (compress f.buffer), f.mimetype, s.now⟩], s.nextId + 1, s.now + 1⟩ f.originalname
      = some ⟨s.nextId, f.originalname,
        encode (randomBytes seed PREFIX_BYTES) (randomBytes (seed + 1) SUFFIX_BYTES)
          (compress f.buffer), f.mimetype, s.now⟩ := by
    unfold Store.findByName
    exact find?_append_singleton s.records _ f.originalname hfresh rfl
  have hdecode : decode
      (encode (randomBytes seed PREFIX_BYTES) (randomBytes (seed + 1) SUFFIX_BYTES)
        (compress f.buffer)) = compress f.buffer :=
    decode_encode _ _ _ (randomBytes_length _ _) (randomBytes_length _ _)
  simp [decompressHandler, hname, hfind, hdecode, decompress_compress]

/-- C1 witness: a concrete three-byte upload round-trips through an empty
store. -/
theorem upload_then_retrieve_roundtrip_witness :
    (decompressHandler "a.txt"
        (uploadHandler 0 (some ⟨"a.txt", [1, 2, 3], "text/x"⟩) emptyStore).store).outcome
      = .success [1, 2, 3] "text/x" :=
  upload_then_retrieve_roundtrip 0 ⟨"a.txt", [1, 2, 3], "text/x"⟩ emptyStore
    (by decide) (by simp [emptyStore])

/-- C2 counterexample: on a stored record whose data is 40 bytes (shorter
than 80), the code's framing decode succeeds with the empty slice (the
spec-side decode would fail with `FramingError`) and the retrieval pipeline
fails with `DecompressionError`, not `FramingError`. -/
theorem short_record_not_framing_error :
    decode (List.replicate 40 0) = [] ∧
    decodeSpec (List.replicate 40 0) = .error .FramingError ∧
    (decompressHandler "f" ⟨[⟨0, "f", List.replicate 40 0, "m", 0⟩], 1, 1⟩).outcome
      = .failure 500 .DecompressionError ∧
    (decompressHandler "f" ⟨[⟨0, "f", List.replicate 40 0, "m", 0⟩], 1, 1⟩).outcome
      ≠ .failure 500 .FramingError :=
  ⟨by decide, rfl, by decide, by decide⟩

/-- C2 (amended): the framing decode never fails on a short buffer; a stored
record whose data is shorter than 80 bytes causes the retrieval pipeline to
fail with `DecompressionError` (HTTP 500) at the decompression step. -/
theorem short_record_fails_at_decompression (s : Store) (name : String) (file : StoredFile)
    (hname : name ≠ "") (hfind : s.findByName name = some file)
    (hlen : file.data.length < 80) :
    (decompressHandler name s).outcome = .failure 500 .DecompressionError := by
  have h1 : (decode file.data).length ≤ 14 := decode_length_le _ hlen
  have h2 : decompress (decode file.data) = .error .DecompressionError :=
    decompress_short _ (by omega)
  simp [decompressHandler, hname, hfind, h2]

/-- C2 witness: a stored 40-byte record is retrieved and the pipeline
answers 500 with `DecompressionError`. -/
theorem short_record_fails_at_decompression_witness :
    (decompressHandler "f" ⟨[⟨0, "f", List.replicate 40 0, "m", 0⟩], 1, 1⟩).outcome
      = .failure 500 .DecompressionError :=
  short_record_fails_at_decompression ⟨[⟨0, "f", List.replicate 40 0, "m", 0⟩], 1, 1⟩
    "f" ⟨0, "f", List.replicate 40 0, "m", 0⟩ (by decide) (by decide) (by decide)

/-- C3: framing codec round-trip and length — for every payload and every
choice of random prefix (32 bytes) and suffix (48 bytes), decoding the
encoding returns the payload and the encoded length is the payload length
plus 80. -/
theorem framing_roundtrip_and_length (pre sfx p : Bytes)
    (hpre : pre.length = PREFIX_BYTES) (hsfx : sfx.length = SUFFIX_BYTES) :
    decode (encode pre sfx p) = p ∧ (encode pre sfx p).length = p.length + 80 :=
  ⟨decode_encode pre sfx p hpre hsfx, encode_length pre sfx p hpre hsfx⟩

/-- C3 witness: concrete prefix/suffix of the right lengths and a three-byte
payload. -/
theorem framing_roundtrip_and_length_witness :
    (List.replicate 32 5).length = PREFIX_BYTES ∧
    (List.replicate 48 6).length = SUFFIX_BYTES ∧
    (decode (encode (List.replicate 32 5) (List.replicate 48 6) [1, 2, 3]) = [1, 2, 3] ∧
      (encode (List.replicate 32 5) (List.replicate 48 6) [1, 2, 3]).length
        = [1, 2, 3].length + 80) :=
  ⟨by decide, by decide,
    framing_roundtrip_and_length (List.replicate 32 5) (List.replicate 48 6) [1, 2, 3]
      (by decide) (by decide)⟩

/-- C4: compression inverse — for every byte sequence, including the empty
one, decompressing the compression returns the input byte-for-byte. -/
theorem compression_roundtrip (x : Bytes) : decompress (compress x) = .ok x :=
  decompress_compress x

/-- C5: upload input validation — the upload handler answers 400 with
`ValidationError` exactly when no file field is present; any present file,
including one with a zero-length buffer, is ingested, and the 0-byte
`empty.txt` scenario retrieves 0 bytes with mime type `text/plain`. -/
theorem upload_validation_and_empty_file :
    (∀ (seed : Nat) (s : Store),
      uploadHandler seed none s = ⟨.failure 400 .ValidationError, s, []⟩) ∧
    (∀ (seed : Nat) (s : Store) (f : UploadedFile),
      (uploadHandler seed (some f) s).outcome = .success f.originalname s.nextId) ∧
    (decompressHandler "empty.txt"
        (uploadHandler 0 (some ⟨"empty.txt", [], "text/plain"⟩) emptyStore).store).outcome
      = .success [] "text/plain" := by
  refine ⟨fun seed s => rfl, fun seed s f => rfl, ?_⟩
  decide

/-- C6: not-found handling — when no stored record matches a (non-empty)
filename, retrieval answers 404 with `NotFoundError`, leaves the store
unchanged, and executes only the lookup step (no decode, no decompression
work). -/
theorem retrieve_missing_not_found (s : Store) (name : String)
    (hname : name ≠ "") (hmiss : ∀ r ∈ s.records, r.name ≠ name) :
    decompressHandler name s = ⟨.failure 404 .NotFoundError, s, [.findStep]⟩ := by
  have hfind : s.findByName name = none := findByName_eq_none s name hmiss
  simp [decompressHandler, hname, hfind]

/-- C6 witness: `missing.txt` against the empty store. -/
theorem retrieve_missing_not_found_witness :
    decompressHandler "missing.txt" emptyStore
      = ⟨.failure 404 .NotFoundError, emptyStore, [.findStep]⟩ :=
  retrieve_missing_not_found emptyStore "missing.txt" (by decide) (by simp [emptyStore])

/-- C7: ingest atomicity — if the compression step fails, the store is
unchanged, no create step is executed and the handler answers 500; in every
run of the upload pipeline the create step is executed at most once (it is
the single externally visible write); a request with no file leaves the
store unchanged as well. -/
theorem ingest_atomicity :
    (∀ (f : UploadedFile) (e : PipelineError) (pre sfx : Bytes) (s : Store),
      (uploadWith f (.error e) pre sfx s).store = s ∧
      Step.createStep ∉ (uploadWith f (.error e) pre sfx s).steps ∧
      (uploadWith f (.error e) pre sfx s).outcome = .failure 500 e) ∧
    (∀ (f : UploadedFile) (compRes : Except PipelineError Bytes) (pre sfx : Bytes) (s : Store),
      (uploadWith f compRes pre sfx s).steps.count Step.createStep ≤ 1) ∧
    (∀ (seed : Nat) (s : Store), (uploadHandler seed none s).store = s) := by
  refine ⟨fun f e pre sfx s => ⟨rfl, ?_, rfl⟩, fun f compRes pre sfx s => ?_, fun seed s => rfl⟩
  · intro h
    simp [uploadWith] at h
  · cases compRes with
    | error e => exact Nat.zero_le 1
    | ok c => exact Nat.le_refl 1

/-- C8: listing order and shape — the files listing is always sorted by
`createdAt` descending, is a permutation of the metadata projections of the
stored records, never depends on any record's data bytes, and after
ingesting A then B then C into an empty store it is exactly [C, B, A]. -/
theorem listing_order_and_shape :
    (∀ s : Store, (filesHandler s).Pairwise (fun a b => b.createdAt ≤ a.createdAt)) ∧
    (∀ s : Store, (filesHandler s).Perm (s.records.map toMetadata)) ∧
    (∀ (s : Store) (f : StoredFile → Bytes), filesHandler (s.mapData f) = filesHandler s) ∧
    (filesHandler (uploadHandler 2 (some ⟨"C", [3], "m"⟩)
        (uploadHandler 1 (some ⟨"B", [2], "m"⟩)
          (uploadHandler 0 (some ⟨"A", [1], "m"⟩) emptyStore).store).store).store =
      [⟨2, "C", "m", 2⟩, ⟨1, "B", "m", 1⟩, ⟨0, "A", "m", 0⟩]) := by
  refine ⟨?_, ?_, fun s f => filesHandler_mapData s f, ?_⟩
  · intro s
    unfold filesHandler
    exact List.Pairwise.map toMetadata (fun a b h => h)
      (pairwise_sortByCreatedAtDesc s.records)
  · intro s
    unfold filesHandler
    exact (perm_sortByCreatedAtDesc s.records).map toMetadata
  · decide

/-- C9: idempotent, side-effect-free retrieval — retrieval never changes the
store, and running the same retrieval again on the resulting store returns
the identical result. -/
theorem retrieval_idempotent_no_writes (name : String) (s : Store) :
    (decompressHandler name s).store = s ∧
    decompressHandler name ((decompressHandler name s).store) = decompressHandler name s := by
  refine ⟨decompressHandler_store name s, ?_⟩
  rw [decompressHandler_store name s]

/-- C10 counterexample: a 41-byte framed buffer is shorter than 80 bytes,
yet `subarray(32, 41 - 48)` is the non-empty slice `[0, 0]` — the
negative-end wraparound makes the extraction non-empty for lengths 41-47. -/
theorem decode_short_nonempty :
    (List.replicate 41 0 : Bytes).length < 80 ∧
    decode (List.replicate 41 0) = [0, 0] ∧
    decode (List.replicate 41 0) ≠ [] := by
  decide

/-- C10 (amended): on every framed buffer shorter than 80 bytes the subarray
extraction is total, returning at most 14 bytes — empty except for lengths
41-47 — and the retrieval pipeline on such a record executes the decode step
and then fails at the decompression step with `DecompressionError`. -/
theorem decode_short_total_and_decomp_failure (b : Bytes) (h : b.length < 80) :
    (decode b).length ≤ 14 ∧
    (b.length ≤ 40 ∨ 48 ≤ b.length → decode b = []) ∧
    (∀ (s : Store) (name : String) (file : StoredFile), name ≠ "" →
      s.findByName name = some file → file.data = b →
      (decompressHandler name s).steps = [.findStep, .decodeStep, .decompressStep] ∧
      (decompressHandler name s).outcome = .failure 500 .DecompressionError) := by
  refine ⟨decode_length_le b h,
    fun hc => decode_short_eq_nil b (hc.imp id (fun h48 => ⟨h48, h⟩)), ?_⟩
  intro s name file hname hfind hdata
  have h1 : (decode file.data).length ≤ 14 := by
    rw [hdata]
    exact decode_length_le b h
  have h2 : decompress (decode file.data) = .error .DecompressionError :=
    decompress_short _ (by omega)
  constructor <;> simp [decompressHandler, hname, hfind, h2]

/-- C10 witness: a stored 41-byte record reaches the decompression step and
fails there with `DecompressionError`. -/
theorem decode_short_total_and_decomp_failure_witness :
    (List.replicate 41 0 : Bytes).length < 80 ∧
    ((decompressHandler "g" ⟨[⟨0, "g", List.replicate 41 0, "m", 0⟩], 1, 1⟩).steps
        = [.findStep, .decodeStep, .decompressStep] ∧
      (decompressHandler "g" ⟨[⟨0, "g", List.replicate 41 0, "m", 0⟩], 1, 1⟩).outcome
        = .failure 500 .DecompressionError) :=
  ⟨by decide,
    (decode_short_total_and_decomp_failure (List.replicate 41 0) (by decide)).2.2
      ⟨[⟨0, "g", List.replicate 41 0, "m", 0⟩], 1, 1⟩ "g"
      ⟨0, "g", List.replicate 41 0, "m", 0⟩ (by decide) (by decide) rfl⟩

end FileServer
